import Mathlib

/-!
Verification of the image-downscaler Lambda (src/functions/src/main.rs).

Rust `String`s are modelled as lists of bytes (`List Nat`, each < 256):
`str::rfind` returns byte indices and `&key[..i]` slices at byte
boundaries, so the byte-level model matches the source exactly.  All
separator bytes the source searches for (`/`, `.`, `+`, `%`) are ASCII.
-/

/-- Byte list of an ASCII string literal (used only on ASCII literals,
where the char codes are exactly the UTF-8 bytes). -/
def bytes (s : String) : List Nat := s.data.map Char.toNat

/-- Index of the last occurrence of byte `c` in `s`; models Rust
`str::rfind` on a one-byte pattern (byte-indexed). -/
def rfind (c : Nat) : List Nat → Option Nat
  | [] => none
  | b :: rest =>
    match rfind c rest with
    | some i => some (i + 1)
    | none => if b = c then some 0 else none

/-- Model of `to_webp_key` (main.rs lines 144-154): replace the extension
after the last `/` by `.webp`, or append `.webp` when there is none. -/
def to_webp_key (key : List Nat) : List Nat :=
  let last_slash := (rfind 47 key).getD 0
  match rfind 46 key with
  | some dot_pos =>
    if last_slash < dot_pos then key.take dot_pos ++ bytes ".webp"
    else key ++ bytes ".webp"
  | none => key ++ bytes ".webp"

/-- Model of `to_sized_webp_key` (main.rs lines 156-166): like
`to_webp_key` but inserting `-<width>` before the `.webp` extension.
Rust renders a `u32` in decimal, which is `Nat.repr` on its value. -/
def to_sized_webp_key (key : List Nat) (width : Nat) : List Nat :=
  let last_slash := (rfind 47 key).getD 0
  match rfind 46 key with
  | some dot_pos =>
    if last_slash < dot_pos then key.take dot_pos ++ bytes ("-" ++ Nat.repr width ++ ".webp")
    else key ++ bytes ("-" ++ Nat.repr width ++ ".webp")
  | none => key ++ bytes ("-" ++ Nat.repr width ++ ".webp")

/-- The part of the input key both derivations keep in front of the
suffix they add: the bytes before the qualifying last dot, or the whole
key.  This is the shared `match` of `to_webp_key` and
`to_sized_webp_key` in the source. -/
def keyStem (key : List Nat) : List Nat :=
  let last_slash := (rfind 47 key).getD 0
  match rfind 46 key with
  | some dot_pos => if last_slash < dot_pos then key.take dot_pos else key
  | none => key

/-- Model of the `+`-to-space substitution in `decode_key`
(main.rs line 138): `key.replace('+', " ")`. -/
def replacePlus (key : List Nat) : List Nat :=
  key.map (fun b => if b = 43 then 32 else b)

/-- Hex digit value, as in the `urlencoding` crate's `from_hex_digit`
(accepts `0-9`, `A-F`, `a-f`). -/
def fromHexDigit (b : Nat) : Option Nat :=
  if 48 ≤ b ∧ b ≤ 57 then some (b - 48)
  else if 65 ≤ b ∧ b ≤ 70 then some (b - 55)
  else if 97 ≤ b ∧ b ≤ 102 then some (b - 87)
  else none

/-- Byte-level percent decoding, as in `urlencoding::decode_binary`: a
`%` followed by two hex digits becomes the decoded byte; an invalid or
truncated escape is kept verbatim (the `%` is emitted and scanning
resumes at the next byte). -/
def percentDecode : List Nat → List Nat
  | [] => []
  | [37] => [37]
  | [37, h1] => [37, h1]
  | 37 :: h1 :: h2 :: rest2 =>
    match fromHexDigit h1, fromHexDigit h2 with
    | some a, some b => (16 * a + b) :: percentDecode rest2
    | _, _ => 37 :: percentDecode (h1 :: h2 :: rest2)
  | b :: rest => b :: percentDecode rest

/-- Whether `b` is a UTF-8 continuation byte (`0x80`-`0xBF`). -/
def isContByte (b : Nat) : Bool := 128 ≤ b && b ≤ 191

/-- Validity of a byte list as UTF-8, the check Rust's
`String::from_utf8` performs; `urlencoding::decode` fails exactly when
the percent-decoded bytes are not valid UTF-8. -/
def isValidUtf8 : List Nat → Bool
  | [] => true
  | b :: rest =>
    if b ≤ 127 then isValidUtf8 rest
    else if 194 ≤ b && b ≤ 223 then
      match rest with
      | b1 :: r => isContByte b1 && isValidUtf8 r
      | [] => false
    else if b = 224 then
      match rest with
      | b1 :: b2 :: r => (160 ≤ b1 && b1 ≤ 191) && isContByte b2 && isValidUtf8 r
      | _ => false
    else if (225 ≤ b && b ≤ 236) || b = 238 || b = 239 then
      match rest with
      | b1 :: b2 :: r => isContByte b1 && isContByte b2 && isValidUtf8 r
      | _ => false
    else if b = 237 then
      match rest with
      | b1 :: b2 :: r => (128 ≤ b1 && b1 ≤ 159) && isContByte b2 && isValidUtf8 r
      | _ => false
    else if b = 240 then
      match rest with
      | b1 :: b2 :: b3 :: r =>
        (144 ≤ b1 && b1 ≤ 191) && isContByte b2 && isContByte b3 && isValidUtf8 r
      | _ => false
    else if 241 ≤ b && b ≤ 243 then
      match rest with
      | b1 :: b2 :: b3 :: r =>
        isContByte b1 && isContByte b2 && isContByte b3 && isValidUtf8 r
      | _ => false
    else if b = 244 then
      match rest with
      | b1 :: b2 :: b3 :: r =>
        (128 ≤ b1 && b1 ≤ 143) && isContByte b2 && isContByte b3 && isValidUtf8 r
      | _ => false
    else false

/-- Model of `decode_key` (main.rs lines 132-142): replace `+` with
space, percent-decode; if the decode fails (invalid UTF-8 after
decoding) fall back to the ORIGINAL `key` (`unwrap_or_else` closes over
`key`, not `key_with_spaces`). -/
def decode_key (key : List Nat) : List Nat :=
  if key = [] then []
  else
    let key_with_spaces := replacePlus key
    let decoded := percentDecode key_with_spaces
    if isValidUtf8 decoded then decoded else key

/-- Model of `TARGET_WIDTHS` (main.rs line 9). -/
def TARGET_WIDTHS : List Nat := [480, 960, 1440, 1920]

/-- The `max_width` binding local to `handle_key` (main.rs line 92). -/
def max_width : Nat := 1440

/-- The `width_targets` vector of `handle_key` (main.rs lines 93-96):
`TARGET_WIDTHS` filtered to widths at most `max_width`. -/
def width_targets : List Nat := TARGET_WIDTHS.filter (fun w => w ≤ max_width)

/-!
Orchestration model.  `handle_key` and `function_handler` perform I/O
against S3; the storage collaborator and the image/WebP codec are
modelled as an oracle environment `Env` that fixes the outcome of every
call the code can make, and each function additionally returns the
trace of storage/codec operations it attempted, in program order.
-/

/-- Opaque decoded raster image (`image::DynamicImage`); the
orchestration claims only pass it around. -/
structure Img where
  tag : Nat
deriving DecidableEq

/-- Outcome of one raw S3 `get_object` call: success with a body, a
`NoSuchKey` service error, or any other error. -/
inductive GetResult where
  | ok (body : List Nat)
  | errNoSuchKey
  | errOther
deriving DecidableEq

/-- Oracle environment fixing the outcome of every external call of one
invocation (S3 operations keyed by bucket and key, codec outcomes,
task-join outcomes by spawn index). -/
structure Env where
  /-- Outcome of the full `get_object` issued by `download_object`. -/
  getObj : List Nat → List Nat → GetResult
  /-- Whether `response.body.collect()` in `download_object` succeeds. -/
  collectOk : Bool
  /-- Result of `image::load_from_memory` on a body (`none` = decode error). -/
  loadImage : List Nat → Option Img
  /-- Outcome of the ranged `get_object` issued by `object_exists`. -/
  getRange : List Nat → List Nat → GetResult
  /-- Outcome of `convert_to_webp` on the decoded image at a width option
  (`none` = resize/encode failure, `some b` = encoded bytes). -/
  encodeRes : Img → Option Nat → Option (List Nat)
  /-- Whether the S3 `put_object` for a bucket and key succeeds. -/
  putOk : List Nat → List Nat → Bool
  /-- Whether `task.await` for the i-th spawned task returns a JoinError. -/
  joinFails : Nat → Bool

/-- Trace event: one attempted storage or codec operation. -/
inductive Ev where
  | download (key : List Nat)
  | existsCheck (key : List Nat)
  | encode (width : Option Nat)
  | put (key : List Nat)
deriving DecidableEq

/-- Model of `object_exists` (main.rs lines 168-187): ranged get; `Ok` means
the object exists, a `NoSuchKey` service error means it does not, and any
other error is propagated. -/
def object_exists (env : Env) (bucket key : List Nat) : Except Unit Bool :=
  match env.getRange bucket key with
  | .ok _ => .ok true
  | .errNoSuchKey => .ok false
  | .errOther => .error ()

/-- Model of `download_object` (main.rs lines 189-202): any `get_object`
error (including `NoSuchKey`) and any body-collect error is propagated. -/
def download_object (env : Env) (bucket key : List Nat) : Except Unit (List Nat) :=
  match env.getObj bucket key with
  | .ok body => if env.collectOk then .ok body else .error ()
  | .errNoSuchKey => .error ()
  | .errOther => .error ()

/-- Model of `convert_to_webp` (main.rs lines 204-220) at the level the
orchestration sees it: resize-and-encode of the decoded image at a width
option, which either yields WebP bytes or fails.  (Its internal height
arithmetic is `f64` floating point and is not modelled.) -/
def convert_to_webp (env : Env) (img : Img) (width : Option Nat) : Except Unit (List Nat) :=
  match env.encodeRes img width with
  | some b => .ok b
  | none => .error ()

/-- Model of `put_webp_object` (main.rs lines 222-240): the S3 put either
succeeds or its error is propagated (content type and cache-control are
fixed constants in the source and carry no control flow). -/
def put_webp_object (env : Env) (bucket key : List Nat) : Except Unit Unit :=
  if env.putOk bucket key then .ok () else .error ()

/-- The canonical-derivative step of `handle_key` (main.rs lines 86-89):
existence check on the `.webp` key, and if absent encode-and-put; `?`
propagates any error.  Returns the result plus the operations attempted. -/
def canonical_step (env : Env) (bucket webp_key : List Nat) (img : Img) :
    Except Unit Unit × List Ev :=
  match object_exists env bucket webp_key with
  | .error _ => (.error (), [.existsCheck webp_key])
  | .ok true => (.ok (), [.existsCheck webp_key])
  | .ok false =>
    match convert_to_webp env img none with
    | .error _ => (.error (), [.existsCheck webp_key, .encode none])
    | .ok _ =>
      match put_webp_object env bucket webp_key with
      | .error _ => (.error (), [.existsCheck webp_key, .encode none, .put webp_key])
      | .ok _ => (.ok (), [.existsCheck webp_key, .encode none, .put webp_key])

/-- One spawned sized-derivative task (main.rs lines 109-119): derive the
sized key, skip if it exists, else encode at the width and put; the
task's own result is `Except` as in the closure's `Ok::<(), anyhow::Error>`. -/
def sized_task (env : Env) (bucket key : List Nat) (img : Img) (width : Nat) :
    Except Unit Unit × List Ev :=
  let sized_key := to_sized_webp_key key width
  match object_exists env bucket sized_key with
  | .error _ => (.error (), [.existsCheck sized_key])
  | .ok true => (.ok (), [.existsCheck sized_key])
  | .ok false =>
    match convert_to_webp env img (some width) with
    | .error _ => (.error (), [.existsCheck sized_key, .encode (some width)])
    | .ok _ =>
      match put_webp_object env bucket sized_key with
      | .error _ => (.error (), [.existsCheck sized_key, .encode (some width), .put sized_key])
      | .ok _ => (.ok (), [.existsCheck sized_key, .encode (some width), .put sized_key])

/-- The await loop of `handle_key` (main.rs lines 123-127): walk the
spawned tasks in order; a join failure is propagated immediately by `?`;
a task's own `Err` is only logged. -/
def await_loop (env : Env) : Nat → List (Except Unit Unit) → Except Unit Unit
  | _, [] => .ok ()
  | i, _ :: rest => if env.joinFails i then .error () else await_loop env (i + 1) rest

/-- Model of `handle_key` (main.rs lines 61-130), with the trace of
attempted operations.  Download errors and non-image bodies are skips;
the canonical step's error is propagated before any sized task is
spawned; then one task per surviving width is spawned and awaited. -/
def handle_key (env : Env) (bucket key : List Nat) : Except Unit Unit × List Ev :=
  match download_object env bucket key with
  | .error _ => (.ok (), [.download key])
  | .ok body =>
    match env.loadImage body with
    | none => (.ok (), [.download key])
    | some img =>
      let webp_key := to_webp_key key
      if webp_key = [] then (.ok (), [.download key])
      else
        match canonical_step env bucket webp_key img with
        | (.error _, tr) => (.error (), .download key :: tr)
        | (.ok _, tr) =>
          if width_targets = [] then (.ok (), .download key :: tr)
          else
            let tasks := width_targets.map (fun w => sized_task env bucket key img w)
            ((await_loop env 0 (tasks.map Prod.fst)),
              (.download key :: tr) ++ (tasks.map Prod.snd).flatten)

/-- Result type of `function_handler`: a `Response { message }` or a
propagated `Error`. -/
inductive HandlerResp where
  | response (message : List Nat)
  | error
deriving DecidableEq

/-- Model of `function_handler` (main.rs lines 37-59): decode the raw
key; an empty bucket name or empty decoded key short-circuits with the
"Unsupported event payload" response before any client call; otherwise
run `handle_key` and map its result. -/
def function_handler (env : Env) (bucket_name raw_key : List Nat) :
    HandlerResp × List Ev :=
  let key := decode_key raw_key
  if bucket_name = [] ∨ key = [] then
    (.response (bytes "Unsupported event payload"), [])
  else
    match handle_key env bucket_name key with
    | (.error _, tr) => (.error, tr)
    | (.ok _, tr) => (.response (bytes "Successfully processed image"), tr)

/-- An attempted operation belonging to a sized-derivative unit for the
input `key`: a sized-key existence check, a sized encode, or a sized-key
put. -/
def sizedEv (key : List Nat) (e : Ev) : Prop :=
  ∃ w, e = .existsCheck (to_sized_webp_key key w) ∨
       e = .encode (some w) ∨
       e = .put (to_sized_webp_key key w)

/-- Concrete environment in which the source-object fetch fails with a
hard (non-`NoSuchKey`) error and everything else would succeed. -/
def envHardGet : Env where
  getObj := fun _ _ => .errOther
  collectOk := true
  loadImage := fun _ => some ⟨0⟩
  getRange := fun _ _ => .errNoSuchKey
  encodeRes := fun _ _ => some [1]
  putOk := fun _ _ => true
  joinFails := fun _ => false

/-- Concrete environment in which every existence check fails with a
hard error (so the canonical step fails at its first call). -/
def envRangeErr : Env where
  getObj := fun _ _ => .ok [7]
  collectOk := true
  loadImage := fun _ => some ⟨0⟩
  getRange := fun _ _ => .errOther
  encodeRes := fun _ _ => some [1]
  putOk := fun _ _ => true
  joinFails := fun _ => false

/-- Concrete environment in which every external call succeeds and no
derivative exists yet. -/
def envAllOk : Env where
  getObj := fun _ _ => .ok [7]
  collectOk := true
  loadImage := fun _ => some ⟨0⟩
  getRange := fun _ _ => .errNoSuchKey
  encodeRes := fun _ _ => some [1]
  putOk := fun _ _ => true
  joinFails := fun _ => false

/-- Concrete environment in which the canonical derivative is produced
fine but every sized encode fails (a unit-internal failure), with all
joins succeeding. -/
def envSizedFail : Env where
  getObj := fun _ _ => .ok [7]
  collectOk := true
  loadImage := fun _ => some ⟨0⟩
  getRange := fun _ _ => .errNoSuchKey
  encodeRes := fun _ w => match w with | none => some [1] | some _ => none
  putOk := fun _ _ => true
  joinFails := fun _ => false

/-!
Supporting lemmas about `rfind` and the key derivations.
-/

theorem rfind_eq_none {c : Nat} {s : List Nat} (h : c ∉ s) : rfind c s = none := by
  induction s with
  | nil => rfl
  | cons b rest ih =>
    have hb : b ≠ c := fun hbc => h (hbc ▸ List.mem_cons_self b rest)
    have hr : c ∉ rest := fun hm => h (List.mem_cons_of_mem b hm)
    unfold rfind
    rw [ih hr]
    simp [hb]

theorem rfind_of_mem {c : Nat} {s : List Nat} (h : c ∈ s) : ∃ d, rfind c s = some d := by
  induction s with
  | nil => simp at h
  | cons b rest ih =>
    unfold rfind
    cases hr : rfind c rest with
    | some i => exact ⟨i + 1, rfl⟩
    | none =>
      have hb : b = c := by
        rcases List.mem_cons.mp h with h1 | h2
        · exact h1.symm
        · obtain ⟨i, hi⟩ := ih h2
          rw [hi] at hr
          cases hr
      exact ⟨0, by simp [hb]⟩

theorem rfind_get {c : Nat} {s : List Nat} {d : Nat} (h : rfind c s = some d) :
    s[d]? = some c := by
  induction s generalizing d with
  | nil => simp [rfind] at h
  | cons b rest ih =>
    unfold rfind at h
    cases hr : rfind c rest with
    | some i =>
      rw [hr] at h
      cases h
      simpa using ih hr
    | none =>
      rw [hr] at h
      by_cases hb : b = c
      · rw [if_pos hb] at h
        cases h
        simp [hb]
      · rw [if_neg hb] at h
        cases h

theorem rfind_maximal {c : Nat} {s : List Nat} {d : Nat} (h : rfind c s = some d) :
    ∀ j, s[j]? = some c → j ≤ d := by
  induction s generalizing d with
  | nil => simp [rfind] at h
  | cons b rest ih =>
    intro j hj
    unfold rfind at h
    cases hr : rfind c rest with
    | some i =>
      rw [hr] at h
      cases h
      cases j with
      | zero => exact Nat.zero_le _
      | succ j' =>
        simp only [List.getElem?_cons_succ] at hj
        exact Nat.succ_le_succ (ih hr j' hj)
    | none =>
      rw [hr] at h
      by_cases hb : b = c
      · rw [if_pos hb] at h
        cases h
        cases j with
        | zero => exact Nat.le_refl 0
        | succ j' =>
          simp only [List.getElem?_cons_succ] at hj
          have hm : c ∈ rest := by
            have := List.getElem?_eq_some_iff.mp hj
            obtain ⟨hlt, hget⟩ := this
            exact hget ▸ List.getElem_mem hlt
          obtain ⟨i, hi⟩ := rfind_of_mem hm
          rw [hi] at hr
          cases hr
      · rw [if_neg hb] at h
        cases h

theorem bytes_append (s t : String) : bytes (s ++ t) = bytes s ++ bytes t := by
  simp [bytes, String.data_append]

theorem to_webp_key_eq_stem (k : List Nat) :
    to_webp_key k = keyStem k ++ bytes ".webp" := by
  unfold to_webp_key keyStem
  cases h : rfind 46 k <;> simp only []
  split <;> rfl

theorem to_sized_webp_key_eq_stem (k : List Nat) (w : Nat) :
    to_sized_webp_key k w = keyStem k ++ bytes ("-" ++ Nat.repr w ++ ".webp") := by
  unfold to_sized_webp_key keyStem
  cases h : rfind 46 k <;> simp only []
  split <;> rfl

theorem to_webp_key_ne_nil (k : List Nat) : to_webp_key k ≠ [] := by
  rw [to_webp_key_eq_stem]
  simp [bytes]

theorem sized_key_ne_webp_key (k1 k2 : List Nat) (w : Nat)
    (hstem : keyStem k1 = keyStem k2) :
    to_sized_webp_key k1 w ≠ to_webp_key k2 := by
  rw [to_sized_webp_key_eq_stem, to_webp_key_eq_stem, ← hstem]
  intro h
  have h2 := List.append_cancel_left h
  have h3 := congrArg List.length h2
  rw [bytes_append, bytes_append] at h3
  simp [bytes] at h3

theorem to_webp_key_replace {k : List Nat} {d : Nat} (hd : rfind 46 k = some d)
    (hlt : (rfind 47 k).getD 0 < d) :
    to_webp_key k = k.take d ++ bytes ".webp" := by
  unfold to_webp_key
  rw [hd]
  simp [hlt]

theorem to_sized_webp_key_replace {k : List Nat} {d : Nat} (w : Nat)
    (hd : rfind 46 k = some d) (hlt : (rfind 47 k).getD 0 < d) :
    to_sized_webp_key k w = k.take d ++ bytes ("-" ++ Nat.repr w ++ ".webp") := by
  unfold to_sized_webp_key
  rw [hd]
  simp [hlt]

theorem to_webp_key_append {k : List Nat}
    (h : ∀ d, rfind 46 k = some d → ¬ (rfind 47 k).getD 0 < d) :
    to_webp_key k = k ++ bytes ".webp" := by
  unfold to_webp_key
  cases hd : rfind 46 k with
  | none => rfl
  | some d => simp [h d hd]

theorem to_sized_webp_key_append {k : List Nat} (w : Nat)
    (h : ∀ d, rfind 46 k = some d → ¬ (rfind 47 k).getD 0 < d) :
    to_sized_webp_key k w = k ++ bytes ("-" ++ Nat.repr w ++ ".webp") := by
  unfold to_sized_webp_key
  cases hd : rfind 46 k with
  | none => rfl
  | some d => simp [h d hd]


/-!
Claim theorems.
-/

/-- C7: the effective target-width list is `TARGET_WIDTHS` filtered to
widths not exceeding the maximum-width policy 1440, in order and without
deduplication, hence exactly `[480, 960, 1440]`; 1920 never survives. -/
theorem width_targets_value :
    width_targets = TARGET_WIDTHS.filter (fun w => w ≤ max_width) ∧
    max_width = 1440 ∧
    width_targets = [480, 960, 1440] ∧
    1920 ∉ width_targets :=
  ⟨rfl, rfl, by decide, by decide⟩

/-- C6: every canonical derivative key ends in ".webp"; when the key has
a '.' strictly after its last '/' the extension from that (last) '.' on
is replaced (`-<width>.webp` for the sized key), otherwise the suffix is
appended; in particular "a/b/photo.jpg" gives "a/b/photo.webp" and
"noext" gives "noext.webp" and "noext-960.webp". -/
theorem webp_key_extension_rule (k : List Nat) (w : Nat) :
    List.IsSuffix (bytes ".webp") (to_webp_key k) ∧
    ((∃ i, k[i]? = some 46 ∧ (rfind 47 k).getD 0 < i) →
      ∃ d, rfind 46 k = some d ∧ (rfind 47 k).getD 0 < d ∧
        to_webp_key k = k.take d ++ bytes ".webp" ∧
        to_sized_webp_key k w = k.take d ++ bytes ("-" ++ Nat.repr w ++ ".webp")) ∧
    ((∀ i, k[i]? = some 46 → ¬ (rfind 47 k).getD 0 < i) →
      to_webp_key k = k ++ bytes ".webp" ∧
      to_sized_webp_key k w = k ++ bytes ("-" ++ Nat.repr w ++ ".webp")) ∧
    to_webp_key (bytes "a/b/photo.jpg") = bytes "a/b/photo.webp" ∧
    to_webp_key (bytes "noext") = bytes "noext.webp" ∧
    to_sized_webp_key (bytes "noext") 960 = bytes "noext-960.webp" := by
  refine ⟨?_, ?_, ?_, by decide, by decide, by decide⟩
  · rw [to_webp_key_eq_stem]
    exact List.suffix_append _ _
  · rintro ⟨i, hi, hlt⟩
    have hm : (46 : Nat) ∈ k := by
      obtain ⟨hl, hg⟩ := List.getElem?_eq_some_iff.mp hi
      exact hg ▸ List.getElem_mem hl
    obtain ⟨d, hd⟩ := rfind_of_mem hm
    have hle := rfind_maximal hd i hi
    have hltd : (rfind 47 k).getD 0 < d := Nat.lt_of_lt_of_le hlt hle
    exact ⟨d, hd, hltd, to_webp_key_replace hd hltd, to_sized_webp_key_replace w hd hltd⟩
  · intro hno
    have h : ∀ d, rfind 46 k = some d → ¬ (rfind 47 k).getD 0 < d :=
      fun d hd => hno d (rfind_get hd)
    exact ⟨to_webp_key_append h, to_sized_webp_key_append w h⟩

/-- Witness for C6 at the key "a/b/photo.jpg" and width 960. -/
theorem webp_key_extension_rule_witness :
    List.IsSuffix (bytes ".webp") (to_webp_key (bytes "a/b/photo.jpg")) ∧
    ((∃ i, (bytes "a/b/photo.jpg")[i]? = some 46 ∧
        (rfind 47 (bytes "a/b/photo.jpg")).getD 0 < i) →
      ∃ d, rfind 46 (bytes "a/b/photo.jpg") = some d ∧
        (rfind 47 (bytes "a/b/photo.jpg")).getD 0 < d ∧
        to_webp_key (bytes "a/b/photo.jpg") =
          (bytes "a/b/photo.jpg").take d ++ bytes ".webp" ∧
        to_sized_webp_key (bytes "a/b/photo.jpg") 960 =
          (bytes "a/b/photo.jpg").take d ++ bytes ("-" ++ Nat.repr 960 ++ ".webp")) ∧
    ((∀ i, (bytes "a/b/photo.jpg")[i]? = some 46 →
        ¬ (rfind 47 (bytes "a/b/photo.jpg")).getD 0 < i) →
      to_webp_key (bytes "a/b/photo.jpg") = bytes "a/b/photo.jpg" ++ bytes ".webp" ∧
      to_sized_webp_key (bytes "a/b/photo.jpg") 960 =
        bytes "a/b/photo.jpg" ++ bytes ("-" ++ Nat.repr 960 ++ ".webp")) ∧
    to_webp_key (bytes "a/b/photo.jpg") = bytes "a/b/photo.webp" ∧
    to_webp_key (bytes "noext") = bytes "noext.webp" ∧
    to_sized_webp_key (bytes "noext") 960 = bytes "noext-960.webp" :=
  webp_key_extension_rule (bytes "a/b/photo.jpg") 960

/-- C10: a key containing no '/' whose last '.' sits at index 0 is
treated as having no extension; both derivations append their suffix to
the whole key instead of replacing from the leading dot. -/
theorem leading_dot_keys_append (k : List Nat) (w : Nat)
    (hs : 47 ∉ k) (hd : rfind 46 k = some 0) :
    to_webp_key k = k ++ bytes ".webp" ∧
    to_sized_webp_key k w = k ++ bytes ("-" ++ Nat.repr w ++ ".webp") := by
  have hnone : rfind 47 k = none := rfind_eq_none hs
  have h : ∀ d, rfind 46 k = some d → ¬ (rfind 47 k).getD 0 < d := by
    intro d hdd
    rw [hd] at hdd
    cases hdd
    simp [hnone]
  exact ⟨to_webp_key_append h, to_sized_webp_key_append w h⟩

/-- Witness for C10 at the key ".gitignore" and width 480. -/
theorem leading_dot_keys_append_witness :
    (47 ∉ bytes ".gitignore" ∧ rfind 46 (bytes ".gitignore") = some 0) ∧
    (to_webp_key (bytes ".gitignore") = bytes ".gitignore" ++ bytes ".webp" ∧
     to_sized_webp_key (bytes ".gitignore") 480 =
       bytes ".gitignore" ++ bytes ("-" ++ Nat.repr 480 ++ ".webp")) :=
  ⟨⟨by decide, by decide⟩,
    leading_dot_keys_append (bytes ".gitignore") 480 (by decide) (by decide)⟩

/-- C4 counterexample: the two distinct keys "a.jpg" and "a.png" derive
the same canonical key "a.webp" and the same sized key at width 480, so
derivation is not injective at a fixed width. -/
theorem derived_key_injectivity_cex :
    bytes "a.jpg" ≠ bytes "a.png" ∧
    to_webp_key (bytes "a.jpg") = to_webp_key (bytes "a.png") ∧
    to_sized_webp_key (bytes "a.jpg") 480 = to_sized_webp_key (bytes "a.png") 480 := by
  exact ⟨by decide, by decide, by decide⟩

/-- C4 amended: at a fixed width option, two keys derive the same
DerivativeKey exactly when their extension-stripped stems coincide; so
derivation is injective on stems, but distinct keys sharing a stem
(such as "a.jpg" and "a.png") do collide. -/
theorem derived_key_eq_iff_stem_eq (k1 k2 : List Nat) (w : Nat) :
    (to_webp_key k1 = to_webp_key k2 ↔ keyStem k1 = keyStem k2) ∧
    (to_sized_webp_key k1 w = to_sized_webp_key k2 w ↔ keyStem k1 = keyStem k2) := by
  constructor
  · rw [to_webp_key_eq_stem, to_webp_key_eq_stem]
    exact ⟨fun h => List.append_cancel_right h, fun h => by rw [h]⟩
  · rw [to_sized_webp_key_eq_stem, to_sized_webp_key_eq_stem]
    exact ⟨fun h => List.append_cancel_right h, fun h => by rw [h]⟩

/-- Witness for the amended C4: "x.jpg" and "y.jpg" have distinct stems
and indeed derive distinct keys at width 480. -/
theorem derived_key_eq_iff_stem_eq_witness :
    keyStem (bytes "x.jpg") ≠ keyStem (bytes "y.jpg") ∧
    (to_webp_key (bytes "x.jpg") = to_webp_key (bytes "y.jpg") ↔
      keyStem (bytes "x.jpg") = keyStem (bytes "y.jpg")) ∧
    (to_sized_webp_key (bytes "x.jpg") 480 = to_sized_webp_key (bytes "y.jpg") 480 ↔
      keyStem (bytes "x.jpg") = keyStem (bytes "y.jpg")) :=
  ⟨by decide, (derived_key_eq_iff_stem_eq (bytes "x.jpg") (bytes "y.jpg") 480).1,
    (derived_key_eq_iff_stem_eq (bytes "x.jpg") (bytes "y.jpg") 480).2⟩

/-- C5 counterexample: on "a+%FF" percent-decoding fails (0xFF is not
valid UTF-8), and `decode_key` returns the ORIGINAL key "a+%FF", not the
plus-substituted "a %FF" the claim predicts. -/
theorem decode_key_fallback_cex :
    isValidUtf8 (percentDecode (replacePlus (bytes "a+%FF"))) = false ∧
    decode_key (bytes "a+%FF") = bytes "a+%FF" ∧
    decode_key (bytes "a+%FF") ≠ replacePlus (bytes "a+%FF") := by
  exact ⟨by decide, by decide, by decide⟩

/-- C5 amended: whenever percent-decoding of the plus-substituted key
fails, `decode_key` falls back to the original raw key unchanged (the
'+' substitution is also discarded); it never fails the pipeline. -/
theorem decode_key_fallback_original (k : List Nat)
    (h : isValidUtf8 (percentDecode (replacePlus k)) = false) :
    decode_key k = k := by
  by_cases he : k = []
  · rw [he]
    rfl
  · simp [decode_key, he, h]

/-- Witness for the amended C5 at the raw key "%FF". -/
theorem decode_key_fallback_original_witness :
    isValidUtf8 (percentDecode (replacePlus (bytes "%FF"))) = false ∧
    decode_key (bytes "%FF") = bytes "%FF" :=
  ⟨by decide, decode_key_fallback_original (bytes "%FF") (by decide)⟩

/-- C3 counterexample: with a source fetch failing with a hard error
other than NotFound, `handle_key` terminates successfully as a skip
(after only the download attempt) instead of propagating an error. -/
theorem fetch_hard_error_cex :
    envHardGet.getObj (bytes "bkt") (bytes "pic.jpg") = GetResult.errOther ∧
    handle_key envHardGet (bytes "bkt") (bytes "pic.jpg") =
      (Except.ok (), [Ev.download (bytes "pic.jpg")]) :=
  ⟨rfl, rfl⟩

/-- C3 amended: every source-object fetch failure (hard error, NotFound,
or body-read failure alike) makes `handle_key` return success as a skip
after the download attempt, with no further operation and no propagated
error. -/
theorem fetch_failure_skips (env : Env) (bucket key : List Nat)
    (h : download_object env bucket key = .error ()) :
    handle_key env bucket key = (.ok (), [.download key]) := by
  unfold handle_key
  rw [h]

/-- Witness for the amended C3: the hard-error environment. -/
theorem fetch_failure_skips_witness :
    download_object envHardGet (bytes "b") (bytes "k") = Except.error () ∧
    handle_key envHardGet (bytes "b") (bytes "k") =
      (Except.ok (), [Ev.download (bytes "k")]) :=
  ⟨rfl, fetch_failure_skips envHardGet (bytes "b") (bytes "k") rfl⟩

/-!
Lemmas for the orchestration claims.
-/

theorem not_sizedEv_download (key k : List Nat) : ¬ sizedEv key (.download k) := by
  rintro ⟨w, h | h | h⟩ <;> simp at h

theorem not_sizedEv_encode_none (key : List Nat) : ¬ sizedEv key (.encode none) := by
  rintro ⟨w, h | h | h⟩ <;> simp at h

theorem not_sizedEv_canonical_exists (key : List Nat) :
    ¬ sizedEv key (.existsCheck (to_webp_key key)) := by
  rintro ⟨w, h | h | h⟩ <;> simp at h
  exact sized_key_ne_webp_key key key w rfl h.symm

theorem not_sizedEv_canonical_put (key : List Nat) :
    ¬ sizedEv key (.put (to_webp_key key)) := by
  rintro ⟨w, h | h | h⟩ <;> simp at h
  exact sized_key_ne_webp_key key key w rfl h.symm

theorem handle_key_of_canonical_error (env : Env) (bucket key body : List Nat)
    (img : Img) (tr : List Ev)
    (hdl : download_object env bucket key = .ok body)
    (himg : env.loadImage body = some img)
    (hcs : canonical_step env bucket (to_webp_key key) img = (.error (), tr)) :
    handle_key env bucket key = (.error (), .download key :: tr) := by
  have hne := to_webp_key_ne_nil key
  simp [handle_key, hdl, himg, hne, hcs]

theorem handle_key_of_canonical_ok (env : Env) (bucket key body : List Nat)
    (img : Img) (tr : List Ev)
    (hdl : download_object env bucket key = .ok body)
    (himg : env.loadImage body = some img)
    (hcs : canonical_step env bucket (to_webp_key key) img = (.ok (), tr)) :
    handle_key env bucket key =
      (await_loop env 0
          ((width_targets.map (fun w => sized_task env bucket key img w)).map Prod.fst),
        (.download key :: tr) ++
          ((width_targets.map (fun w => sized_task env bucket key img w)).map Prod.snd).flatten) := by
  have hne := to_webp_key_ne_nil key
  have hwt : ¬ width_targets = [] := by decide
  simp [handle_key, hdl, himg, hne, hcs, hwt]

theorem await_loop_ok_iff (env : Env) (l : List (Except Unit Unit)) (s : Nat) :
    await_loop env s l = .ok () ↔ ∀ i, i < l.length → env.joinFails (s + i) = false := by
  induction l generalizing s with
  | nil => simp [await_loop]
  | cons r rest ih =>
    cases hj : env.joinFails s with
    | true =>
      simp only [await_loop, hj, if_true]
      constructor
      · intro h
        simp at h
      · intro h
        have h0 := h 0 (by simp)
        rw [Nat.add_zero, hj] at h0
        cases h0
    | false =>
      simp only [await_loop, hj, Bool.false_eq_true, if_false]
      rw [ih (s + 1)]
      constructor
      · intro h i hi
        cases i with
        | zero => simpa using hj
        | succ i' =>
          have hh := h i' (by simpa using Nat.lt_of_succ_lt_succ hi)
          rw [show s + (i' + 1) = s + 1 + i' by omega]
          exact hh
      · intro h i hi
        have hh := h (i + 1) (by simpa using Nat.succ_lt_succ hi)
        rw [show s + 1 + i = s + (i + 1) by omega]
        exact hh

theorem sized_task_starts_exists (env : Env) (bucket key : List Nat) (img : Img) (w : Nat) :
    Ev.existsCheck (to_sized_webp_key key w) ∈ (sized_task env bucket key img w).2 := by
  unfold sized_task
  cases h1 : object_exists env bucket (to_sized_webp_key key w) with
  | error e => simp [h1]
  | ok b =>
    cases b with
    | true => simp [h1]
    | false =>
      cases h2 : convert_to_webp env img (some w) with
      | error e => simp [h1, h2]
      | ok bb =>
        cases h3 : put_webp_object env bucket (to_sized_webp_key key w) with
        | error e => simp [h1, h2, h3]
        | ok u => simp [h1, h2, h3]

/-- C1: when the download and image decode succeed and the canonical
step fails (existence-check error, WebP encode error, or canonical put
error), `handle_key` returns the propagated error and its trace contains
no sized-derivative operation: no sized-key existence check, no sized
encode, and no sized-key put, for any width. -/
theorem canonical_failure_fatal_no_sized (env : Env) (bucket key body : List Nat)
    (img : Img)
    (hdl : download_object env bucket key = .ok body)
    (himg : env.loadImage body = some img)
    (hfail :
      object_exists env bucket (to_webp_key key) = .error () ∨
      (object_exists env bucket (to_webp_key key) = .ok false ∧
        convert_to_webp env img none = .error ()) ∨
      (object_exists env bucket (to_webp_key key) = .ok false ∧
        (∃ b, convert_to_webp env img none = .ok b) ∧
        put_webp_object env bucket (to_webp_key key) = .error ())) :
    (handle_key env bucket key).1 = .error () ∧
    ∀ e ∈ (handle_key env bucket key).2, ¬ sizedEv key e := by
  have hcs :
      canonical_step env bucket (to_webp_key key) img =
        (.error (), [.existsCheck (to_webp_key key)]) ∨
      canonical_step env bucket (to_webp_key key) img =
        (.error (), [.existsCheck (to_webp_key key), .encode none]) ∨
      canonical_step env bucket (to_webp_key key) img =
        (.error (), [.existsCheck (to_webp_key key), .encode none, .put (to_webp_key key)]) := by
    rcases hfail with h | ⟨h1, h2⟩ | ⟨h1, ⟨b, h2⟩, h3⟩
    · left
      unfold canonical_step
      rw [h]
    · right
      left
      unfold canonical_step
      rw [h1, h2]
    · right
      right
      unfold canonical_step
      rw [h1, h2, h3]
  rcases hcs with h | h | h <;>
      rw [handle_key_of_canonical_error env bucket key body img _ hdl himg h] <;>
      refine ⟨rfl, ?_⟩ <;>
      intro e he <;>
      simp only [List.mem_cons, List.not_mem_nil, or_false] at he
  · rcases he with rfl | rfl
    · exact not_sizedEv_download key key
    · exact not_sizedEv_canonical_exists key
  · rcases he with rfl | rfl | rfl
    · exact not_sizedEv_download key key
    · exact not_sizedEv_canonical_exists key
    · exact not_sizedEv_encode_none key
  · rcases he with rfl | rfl | rfl | rfl
    · exact not_sizedEv_download key key
    · exact not_sizedEv_canonical_exists key
    · exact not_sizedEv_encode_none key
    · exact not_sizedEv_canonical_put key

/-- Witness for C1: environment whose ranged gets all fail hard, so the
canonical existence check errors. -/
theorem canonical_failure_fatal_no_sized_witness :
    download_object envRangeErr (bytes "b") (bytes "pic.jpg") = Except.ok [7] ∧
    envRangeErr.loadImage [7] = some ⟨0⟩ ∧
    object_exists envRangeErr (bytes "b") (to_webp_key (bytes "pic.jpg")) =
      Except.error () ∧
    ((handle_key envRangeErr (bytes "b") (bytes "pic.jpg")).1 = Except.error () ∧
      ∀ e ∈ (handle_key envRangeErr (bytes "b") (bytes "pic.jpg")).2,
        ¬ sizedEv (bytes "pic.jpg") e) :=
  ⟨rfl, rfl, rfl,
    canonical_failure_fatal_no_sized envRangeErr (bytes "b") (bytes "pic.jpg") [7] ⟨0⟩
      rfl rfl (Or.inl rfl)⟩

/-- C2: once the canonical step has succeeded, the result of
`handle_key` depends only on the join outcomes: with every `task.await`
succeeding it returns success no matter how any sized unit fails
internally (the environment is unconstrained on sized existence checks,
encodes and puts), a join failure is propagated as the invocation error,
and every width's unit still runs (its existence check is in the trace). -/
theorem sized_unit_failures_isolated (env : Env) (bucket key body : List Nat)
    (img : Img) (tr : List Ev)
    (hdl : download_object env bucket key = .ok body)
    (himg : env.loadImage body = some img)
    (hcs : canonical_step env bucket (to_webp_key key) img = (.ok (), tr)) :
    ((∀ i, i < width_targets.length → env.joinFails i = false) →
      (handle_key env bucket key).1 = .ok ()) ∧
    ((∃ i, i < width_targets.length ∧ env.joinFails i = true) →
      (handle_key env bucket key).1 = .error ()) ∧
    ∀ w ∈ width_targets,
      Ev.existsCheck (to_sized_webp_key key w) ∈ (handle_key env bucket key).2 := by
  rw [handle_key_of_canonical_ok env bucket key body img tr hdl himg hcs]
  have hlen :
      ((width_targets.map (fun w => sized_task env bucket key img w)).map Prod.fst).length =
        width_targets.length := by
    simp
  refine ⟨?_, ?_, ?_⟩
  · intro h
    dsimp only
    rw [await_loop_ok_iff]
    intro i hi
    rw [Nat.zero_add]
    exact h i (by rw [← hlen]; exact hi)
  · rintro ⟨i, hi, hj⟩
    dsimp only
    have hnot :
        ¬ (await_loop env 0
            ((width_targets.map (fun w => sized_task env bucket key img w)).map Prod.fst) =
          .ok ()) := by
      rw [await_loop_ok_iff]
      intro hall
      have hk := hall i (by rw [hlen]; exact hi)
      rw [Nat.zero_add, hj] at hk
      cases hk
    cases hres : await_loop env 0
        ((width_targets.map (fun w => sized_task env bucket key img w)).map Prod.fst) with
    | error e => cases e; rfl
    | ok u => cases u; exact absurd hres hnot
  · intro w hw
    dsimp only
    refine List.mem_append.mpr (Or.inr ?_)
    rw [List.mem_flatten]
    refine ⟨(sized_task env bucket key img w).2, ?_, sized_task_starts_exists env bucket key img w⟩
    rw [List.map_map]
    exact List.mem_map_of_mem _ hw

/-- Witness for C2: canonical derivative fine, every sized encode fails
internally, all joins succeed; the invocation still reports success and
all three sized units run. -/
theorem sized_unit_failures_isolated_witness :
    download_object envSizedFail (bytes "b") (bytes "pic.jpg") = Except.ok [7] ∧
    envSizedFail.loadImage [7] = some ⟨0⟩ ∧
    canonical_step envSizedFail (bytes "b") (to_webp_key (bytes "pic.jpg")) ⟨0⟩ =
      (Except.ok (),
        [Ev.existsCheck (to_webp_key (bytes "pic.jpg")), Ev.encode none,
          Ev.put (to_webp_key (bytes "pic.jpg"))]) ∧
    envSizedFail.encodeRes ⟨0⟩ (some 480) = none ∧
    (handle_key envSizedFail (bytes "b") (bytes "pic.jpg")).1 = Except.ok () ∧
    ∀ w ∈ width_targets,
      Ev.existsCheck (to_sized_webp_key (bytes "pic.jpg") w) ∈
        (handle_key envSizedFail (bytes "b") (bytes "pic.jpg")).2 :=
  ⟨rfl, rfl, rfl, rfl,
    (sized_unit_failures_isolated envSizedFail (bytes "b") (bytes "pic.jpg") [7] ⟨0⟩ _
        rfl rfl rfl).1 (fun _ _ => rfl),
    (sized_unit_failures_isolated envSizedFail (bytes "b") (bytes "pic.jpg") [7] ⟨0⟩ _
        rfl rfl rfl).2.2⟩

/-- C9: with an empty bucket name or an empty decoded key, the handler
returns the success response "Unsupported event payload" and the trace
is empty: no get, no existence check, no put. -/
theorem unsupported_payload_no_ops (env : Env) (bucket_name raw_key : List Nat)
    (h : bucket_name = [] ∨ decode_key raw_key = []) :
    function_handler env bucket_name raw_key =
      (HandlerResp.response (bytes "Unsupported event payload"), []) := by
  unfold function_handler
  dsimp only
  rw [if_pos h]

/-- Witness for C9: empty bucket name. -/
theorem unsupported_payload_no_ops_witness :
    ((bytes "" : List Nat) = [] ∨ decode_key (bytes "pic.jpg") = []) ∧
    function_handler envAllOk (bytes "") (bytes "pic.jpg") =
      (HandlerResp.response (bytes "Unsupported event payload"), []) :=
  ⟨Or.inl rfl,
    unsupported_payload_no_ops envAllOk (bytes "") (bytes "pic.jpg") (Or.inl rfl)⟩
